import Mathlib

/-
Verification of the control-plane scale reconciliation logic of
cluster-api-provider-rke2 (controlplane/internal/controllers/scale.go),
shallowly embedded in Lean 4.

Conventions of the embedding:
* Go machine records become the `Machine` structure; condition lists keep the
  tri-state status.  The Go collection is a map iterated in some order; we use
  lists, since none of the verified properties depend on enumeration order.
* Store calls (create, delete, uncached read) are injected as explicit
  outcomes, so each reconciliation function is a pure function of its inputs
  and of those outcomes.
* `ctrl.Result` becomes `CtrlResult`; a nil Go error becomes `none`.
-/

/-- Result type mirroring controller-runtime ctrl.Result: a Requeue flag and a
RequeueAfter duration (durations are modelled as Nat). -/
structure CtrlResult where
  requeue : Bool := false
  requeueAfter : Nat := 0
deriving DecidableEq, Repr

/-- ctrl.Result.IsZero: no requeue requested and no backoff. -/
def CtrlResult.isZero (r : CtrlResult) : Bool :=
  !r.requeue && r.requeueAfter == 0

/-- Modelled from the spec: the fixed backoff constant deleteRequeueAfter is
declared outside src (const block of the controller package); the spec only
requires it to be a fixed configuration value.  We pick 30 (seconds). -/
def deleteRequeueAfter : Nat := 30

/-- Modelled from the spec: the fixed backoff constant
preflightFailedRequeueAfter, likewise declared outside src.  We pick 15
(seconds); the claims only depend on the two constants being distinct and
nonzero. -/
def preflightFailedRequeueAfter : Nat := 15

/- ----------------------------------------------------------------
   VersionTranslator: rke2ToKubeVersion (scale.go lines 348-358)

   The Go code compiles the constant regular expression
     v(\d\.\d{2}\.\d)\+rke2r\d
   and applies ReplaceAll with template "$1".  The pattern has a fixed
   length of 14 characters; the capture group are the 6 characters after
   the leading v (digit, dot, digit, digit, dot, digit).  ReplaceAll scans
   the input left to right and substitutes each non-overlapping match with
   the capture.  We embed exactly that scan; the fuel argument equals the
   input length, which bounds the number of steps since every step consumes
   at least one character.
   ---------------------------------------------------------------- -/

/-- Does the fixed 14-character pattern v(\d\.\d\d\.\d)\+rke2r\d match at the
head of the character list? -/
def matchAt14 : List Char → Bool
  | v :: a :: p1 :: b :: c :: p2 :: d :: pl :: r1 :: k1 :: e1 :: t1 :: r2 :: n :: _ =>
      v == 'v' && a.isDigit && p1 == '.' && b.isDigit && c.isDigit && p2 == '.' &&
      d.isDigit && pl == '+' && r1 == 'r' && k1 == 'k' && e1 == 'e' && t1 == '2' &&
      r2 == 'r' && n.isDigit
  | _ => false

/-- The capture group of a match at the head: the 6 characters following the
leading v. -/
def captureAt (l : List Char) : List Char :=
  (l.drop 1).take 6

/-- One left-to-right ReplaceAll scan.  At each position, if the pattern
matches, emit the capture and resume after the 14 consumed characters;
otherwise emit the character and move one position right. -/
def replaceScanAux : Nat → List Char → List Char
  | 0, l => l
  | _ + 1, [] => []
  | fuel + 1, x :: rest =>
      if matchAt14 (x :: rest) then
        captureAt (x :: rest) ++ replaceScanAux fuel ((x :: rest).drop 14)
      else
        x :: replaceScanAux fuel rest

/-- rke2ToKubeVersion: regex.ReplaceAll of the constant pattern with "$1".
The second component is the returned error: the constant pattern always
compiles, so the error branch of regexp.Compile is unreachable and the Go
function always returns a nil error. -/
def rke2ToKubeVersion (s : String) : String × Option String :=
  (String.mk (replaceScanAux s.data.length s.data), none)

/-- Does the regular expression match anywhere in the character list? -/
def containsRke2Pattern : List Char → Bool
  | [] => false
  | x :: rest => matchAt14 (x :: rest) || containsRke2Pattern rest

/-- If the pattern matches nowhere, the scan copies its input unchanged, for
every amount of fuel. -/
theorem replaceScanAux_no_match (fuel : Nat) :
    ∀ l : List Char, containsRke2Pattern l = false → replaceScanAux fuel l = l := by
  induction fuel with
  | zero => intro l _; rfl
  | succ fuel ih =>
      intro l hl
      cases l with
      | nil => rfl
      | cons x rest =>
          have hsplit : matchAt14 (x :: rest) = false ∧ containsRke2Pattern rest = false := by
            have := hl
            simp [containsRke2Pattern] at this
            exact this
          simp [replaceScanAux, hsplit.1, ih rest hsplit.2]

/-- If the pattern matches at the head of a 14-character input, the scan
with positive fuel emits exactly the capture group. -/
theorem replaceScanAux_head_match (fuel : Nat) (x : Char) (rest : List Char)
    (h : matchAt14 (x :: rest) = true) :
    replaceScanAux (fuel + 1) (x :: rest) =
      captureAt (x :: rest) ++ replaceScanAux fuel ((x :: rest).drop 14) := by
  simp [replaceScanAux, h]

/-- C1 counterexample: the claim predicts rke2ToKubeVersion "v1.23.4+rke2r1"
= "v1.23.4", but the capture group of the compiled regex excludes the leading
v, so the code returns "1.23.4".  Moreover "v1.2.3+rke2r1" matches the
pattern v-major-minor-patch-plus-suffix-r-N of the claim (single-digit
minor), yet the code regex demands a two-digit minor, so the input is
returned unchanged instead of being stripped. -/
theorem rke2ToKubeVersion_counterexample :
    (rke2ToKubeVersion "v1.23.4+rke2r1").1 ≠ "v1.23.4" ∧
    (rke2ToKubeVersion "v1.23.4+rke2r1").1 = "1.23.4" ∧
    (rke2ToKubeVersion "v1.2.3+rke2r1").1 = "v1.2.3+rke2r1" := by
  refine ⟨by decide, by decide, by decide⟩

/-- C1 (amended): for every string of the exact form matched by the compiled
regex - v, one digit, dot, two digits, dot, one digit, the literal +rke2r,
one digit - the translation returns major.minor.patch WITHOUT the leading v
(the capture group excludes it), and no error. -/
theorem rke2ToKubeVersion_exact_form (a b c d n : Char)
    (ha : a.isDigit) (hb : b.isDigit) (hc : c.isDigit) (hd : d.isDigit)
    (hn : n.isDigit) :
    rke2ToKubeVersion (String.mk ['v', a, '.', b, c, '.', d, '+', 'r', 'k', 'e', '2', 'r', n]) =
      (String.mk [a, '.', b, c, '.', d], none) := by
  have hm : matchAt14 ['v', a, '.', b, c, '.', d, '+', 'r', 'k', 'e', '2', 'r', n] = true := by
    simp [matchAt14, ha, hb, hc, hd, hn]
  have hstep := replaceScanAux_head_match 13 'v'
    [a, '.', b, c, '.', d, '+', 'r', 'k', 'e', '2', 'r', n] hm
  simp only [rke2ToKubeVersion]
  refine Prod.ext ?_ rfl
  show String.mk (replaceScanAux 14 ['v', a, '.', b, c, '.', d, '+', 'r', 'k', 'e', '2', 'r', n]) = _
  rw [show (14 : Nat) = 13 + 1 from rfl, hstep]
  rfl

/-- Witness for the amended C1 theorem at the concrete digits of the
specification example v1.23.4+rke2r1. -/
theorem rke2ToKubeVersion_exact_form_witness :
    rke2ToKubeVersion (String.mk ['v', '1', '.', '2', '3', '.', '4', '+', 'r', 'k', 'e', '2', 'r', '1']) =
      (String.mk ['1', '.', '2', '3', '.', '4'], none) :=
  rke2ToKubeVersion_exact_form '1' '2' '3' '4' '1'
    (by decide) (by decide) (by decide) (by decide) (by decide)

/-- C8: an input in which the compiled pattern matches nowhere is returned
unchanged, with no error. -/
theorem rke2ToKubeVersion_unmatched (s : String)
    (h : containsRke2Pattern s.data = false) :
    rke2ToKubeVersion s = (s, none) := by
  unfold rke2ToKubeVersion
  rw [replaceScanAux_no_match s.data.length s.data h]

/-- Witness for C8: the pattern matches nowhere in "v1.2.3+rke2r1" (the
minor part has a single digit), and the string is returned unchanged. -/
theorem rke2ToKubeVersion_unmatched_witness :
    containsRke2Pattern "v1.2.3+rke2r1".data = false ∧
    rke2ToKubeVersion "v1.2.3+rke2r1" = ("v1.2.3+rke2r1", none) :=
  ⟨by decide, rke2ToKubeVersion_unmatched "v1.2.3+rke2r1" (by decide)⟩

/- ----------------------------------------------------------------
   Data model: machines and conditions.

   clusterv1.Machine is embedded with the fields the scale logic reads:
   Name, Namespace, UID, Spec.FailureDomain, a deletion timestamp marker,
   the delete-requested marker (the clusterv1 delete-machine annotation on
   ObjectMeta), and Status.Conditions.  The namespace field is spelled ns
   because namespace is a Lean keyword.
   ---------------------------------------------------------------- -/

/-- Tri-state condition status of corev1.ConditionStatus. -/
inductive CondStatus where
  | condTrue
  | condFalse
  | condUnknown
deriving DecidableEq, Repr

/-- One entry of Status.Conditions: type, status, severity, message. -/
structure Condition where
  condType : String
  status : CondStatus
  severity : String
  message : String
deriving DecidableEq, Repr

/-- A control-plane machine record. -/
structure Machine where
  name : String
  ns : String
  uid : String
  failureDomain : Option String
  hasDeletionTimestamp : Bool
  deleteRequested : Bool
  conditions : List Condition
deriving DecidableEq, Repr

/-- conditions.Get: the first condition of the given type, if any. -/
def conditionsGet (m : Machine) (t : String) : Option Condition :=
  m.conditions.find? (fun c => c.condType == t)

/-- Modelled from the spec: the condition type constant
controlplanev1.MachineAgentHealthyCondition is declared in the api package,
which is not under src; the claims depend only on the gate evaluating a
fixed list of condition kinds. -/
def MachineAgentHealthyCondition : String := "AgentHealthy"

/-- The fixed list of machine health conditions checked by the preflight
gate (scale.go line 179). -/
def allMachineHealthConditions : List String := [MachineAgentHealthyCondition]

/-- Structured rendering of the error strings produced by
preflightCheckCondition: the condition is absent, explicitly false, or
unknown. -/
inductive CondError where
  | absent (kind name condType : String)
  | isFalse (kind name condType severity message : String)
  | unknown (kind name condType message : String)
deriving DecidableEq, Repr

/-- The machine name an error message reports. -/
def condErrName : CondError → String
  | .absent _ n _ => n
  | .isFalse _ n _ _ _ => n
  | .unknown _ n _ _ => n

/-- preflightCheckCondition (scale.go lines 213-226): nil condition, false
status and unknown status each produce an error; a true condition passes. -/
def preflightCheckCondition (kind : String) (m : Machine) (t : String) : Option CondError :=
  match conditionsGet m t with
  | none => some (.absent kind m.name t)
  | some c =>
      match c.status with
      | .condFalse => some (.isFalse kind m.name t c.severity c.message)
      | .condUnknown => some (.unknown kind m.name t c.message)
      | .condTrue => none

/-- The errors one machine contributes: one per failing condition of the
fixed list. -/
def machineCondErrors (m : Machine) : List CondError :=
  allMachineHealthConditions.filterMap (preflightCheckCondition "machine" m)

/-- The exclusion test of the preflight loop (scale.go line 190): the
machine is skipped when its Name equals the Name of some excluded machine. -/
def isExcluded (excludeFor : List Machine) (m : Machine) : Bool :=
  excludeFor.any (fun e => m.name == e.name)

/-- The error-collection loop of preflightChecks (scale.go lines 184-200):
excluded machines are skipped, every other machine contributes the errors of
its health conditions. -/
def collectErrors (excludeFor : List Machine) : List Machine → List CondError
  | [] => []
  | m :: rest =>
      if isExcluded excludeFor m then collectErrors excludeFor rest
      else machineCondErrors m ++ collectErrors excludeFor rest

/-- Modelled from the spec: FilterableMachineCollection.HasDeletingMachine
lives in pkg/rke2, not under src; per the spec it reports whether any member
carries a deletion marker. -/
def hasDeletingMachine (machines : List Machine) : Bool :=
  machines.any (fun m => m.hasDeletionTimestamp)

/-- preflightChecks (scale.go lines 163-211).  The Go function always
returns a nil error (noted nolint:unparam in the source), so the embedding
returns only the ctrl.Result: empty view passes; a deleting machine anywhere
in the view yields the deleteRequeueAfter backoff regardless of the
exclusion set; otherwise failing health conditions of non-excluded machines
yield the preflightFailedRequeueAfter backoff; otherwise pass. -/
def preflightChecks (machines : List Machine) (excludeFor : List Machine) : CtrlResult :=
  if machines.length == 0 then {}
  else if hasDeletingMachine machines then { requeueAfter := deleteRequeueAfter }
  else if (collectErrors excludeFor machines).length > 0 then
    { requeueAfter := preflightFailedRequeueAfter }
  else {}

/- Helper lemmas about the error-collection loop. -/

/-- The exclusion test is a function of the Name fields of the exclusion
set. -/
theorem isExcluded_name_view (m : Machine) (ex : List Machine) :
    isExcluded ex m = ((ex.map fun e => e.name).any fun s => m.name == s) := by
  unfold isExcluded
  induction ex with
  | nil => rfl
  | cons e rest ih => simp only [List.any_cons, List.map_cons, ih]

/-- The exclusion test reads only the Name fields of the exclusion set. -/
theorem isExcluded_eq_of_name_eq (ex1 ex2 : List Machine)
    (h : ex1.map (fun e => e.name) = ex2.map (fun e => e.name)) (m : Machine) :
    isExcluded ex1 m = isExcluded ex2 m := by
  rw [isExcluded_name_view, isExcluded_name_view, h]

/-- The collection loop is the concatenation of the per-machine errors of the
non-excluded machines, in view order. -/
theorem collectErrors_eq_join (excludeFor : List Machine) (machines : List Machine) :
    collectErrors excludeFor machines =
      ((machines.filter (fun m => !isExcluded excludeFor m)).map machineCondErrors).flatten := by
  induction machines with
  | nil => rfl
  | cons m rest ih =>
      cases hm : isExcluded excludeFor m with
      | true => simp [collectErrors, hm, List.filter_cons, ih]
      | false => simp [collectErrors, hm, List.filter_cons, ih]

/-- Collected errors depend on the exclusion set only through its Names. -/
theorem collectErrors_eq_of_name_eq (ex1 ex2 : List Machine)
    (h : ex1.map (fun e => e.name) = ex2.map (fun e => e.name))
    (machines : List Machine) :
    collectErrors ex1 machines = collectErrors ex2 machines := by
  induction machines with
  | nil => rfl
  | cons m rest ih =>
      unfold collectErrors
      rw [isExcluded_eq_of_name_eq ex1 ex2 h m, ih]

/-- Every error the per-condition check produces reports the name of the
machine it was evaluated on. -/
theorem preflightCheckCondition_name (m : Machine) (t : String) (e : CondError)
    (h : preflightCheckCondition "machine" m t = some e) : condErrName e = m.name := by
  unfold preflightCheckCondition at h
  split at h
  · injection h with h1
    rw [← h1]
    rfl
  · split at h
    · injection h with h1
      rw [← h1]
      rfl
    · injection h with h1
      rw [← h1]
      rfl
    · cases h

/-- Every error a machine contributes reports the name of that machine. -/
theorem condErrName_of_mem (m : Machine) (e : CondError)
    (he : e ∈ machineCondErrors m) : condErrName e = m.name := by
  unfold machineCondErrors at he
  rw [List.mem_filterMap] at he
  obtain ⟨t, _, ht⟩ := he
  exact preflightCheckCondition_name m t e ht

/-- Every collected error is contributed by a non-excluded machine of the
view. -/
theorem mem_collectErrors (excludeFor : List Machine) (machines : List Machine)
    (e : CondError) (he : e ∈ collectErrors excludeFor machines) :
    ∃ m, m ∈ machines ∧ isExcluded excludeFor m = false ∧ e ∈ machineCondErrors m := by
  rw [collectErrors_eq_join] at he
  rw [List.mem_flatten] at he
  obtain ⟨xs, hxs, hexs⟩ := he
  rw [List.mem_map] at hxs
  obtain ⟨m, hmf, hmap⟩ := hxs
  rw [List.mem_filter] at hmf
  refine ⟨m, hmf.1, ?_, by rw [hmap]; exact hexs⟩
  have := hmf.2
  cases hx : isExcluded excludeFor m
  · rfl
  · rw [hx] at this; cases this

/- Concrete fixtures used by witnesses and counterexamples. -/

def condHealthy : Condition := ⟨MachineAgentHealthyCondition, .condTrue, "", ""⟩

def condSick : Condition := ⟨MachineAgentHealthyCondition, .condFalse, "Error", "agent down"⟩

def mHealthy : Machine := ⟨"m-healthy", "default", "uid-h", some "fd-1", false, false, [condHealthy]⟩

def mSick : Machine := ⟨"m-sick", "default", "uid-s", some "fd-1", false, false, [condSick]⟩

def mCand : Machine := ⟨"m-cand", "default", "uid-c", some "fd-2", false, false, [condSick]⟩

/-- Same name as mCand, different namespace and UID. -/
def mCandAlias : Machine := ⟨"m-cand", "other", "uid-z", none, false, false, []⟩

def mDel : Machine := ⟨"m-del", "default", "uid-d", none, true, false, [condHealthy]⟩

/-- C4 counterexample: a view whose only member carries a deletion marker and
is also in the exclusion set.  No NON-excluded member carries a marker, yet
the gate fails with the deleteRequeueAfter backoff: the code applies the
exclusion set only to the health-condition loop, never to the
HasDeletingMachine test. -/
theorem preflight_deletion_excluded_counterexample :
    preflightChecks [mDel] [mDel] = { requeueAfter := deleteRequeueAfter } ∧
    ([mDel].filter (fun m => !isExcluded [mDel] m)).any (fun m => m.hasDeletionTimestamp) = false := by
  refine ⟨by decide, by decide⟩

/-- C4 (amended): for every non-empty view and every exclusion set, the gate
fails with the deleteRequeueAfter backoff if and only if some member of the
view - excluded or not - carries a deletion marker; the exclusion set plays
no role in this rule. -/
theorem preflightChecks_deletion_marker (machines excludeFor : List Machine)
    (h : machines ≠ []) :
    preflightChecks machines excludeFor = { requeueAfter := deleteRequeueAfter } ↔
      hasDeletingMachine machines = true := by
  have h0 : ¬((machines.length == 0) = true) := by
    simp [List.length_eq_zero, h]
  cases hdel : hasDeletingMachine machines with
  | true => simp [preflightChecks, h0, hdel]
  | false =>
      by_cases hc : (collectErrors excludeFor machines).length > 0
      · simp [preflightChecks, h0, hdel, hc, CtrlResult.mk.injEq,
          deleteRequeueAfter, preflightFailedRequeueAfter]
      · simp [preflightChecks, h0, hdel, hc, CtrlResult.mk.injEq, deleteRequeueAfter]

/-- Witness for the amended C4 theorem: a one-member view with a deletion
marker and an empty exclusion set. -/
theorem preflightChecks_deletion_marker_witness :
    preflightChecks [mDel] [] = { requeueAfter := deleteRequeueAfter } :=
  (preflightChecks_deletion_marker [mDel] [] (by decide)).2 (by decide)

/-- The per-condition check passes exactly when the condition is present
with an explicitly true status. -/
theorem preflightCheckCondition_none_iff (m : Machine) (t : String) :
    preflightCheckCondition "machine" m t = none ↔
      ∃ c, conditionsGet m t = some c ∧ c.status = CondStatus.condTrue := by
  unfold preflightCheckCondition
  cases hg : conditionsGet m t with
  | none => simp
  | some c =>
      cases hs : c.status with
      | condTrue => simp [hs]
      | condFalse => simp [hs]
      | condUnknown => simp [hs]

/-- C6: in the health-condition phase (non-empty view, no deleting machine),
the gate evaluates every non-excluded member against the fixed condition
list; a condition passes only when present with an explicitly true status,
so false, unknown and absent are all collected; a non-empty collection
yields the preflightFailedRequeueAfter backoff, an empty one passes; and no
collected error reports the name of an excluded machine, so an excluded
candidate never blocks on its own unhealthy condition. -/
theorem preflightChecks_health_phase (machines excludeFor : List Machine)
    (hne : machines ≠ []) (hnd : hasDeletingMachine machines = false) :
    (preflightChecks machines excludeFor =
      (if (collectErrors excludeFor machines).isEmpty then {}
       else { requeueAfter := preflightFailedRequeueAfter })) ∧
    collectErrors excludeFor machines =
      ((machines.filter (fun m => !isExcluded excludeFor m)).map machineCondErrors).flatten ∧
    (∀ m t, preflightCheckCondition "machine" m t = none ↔
      ∃ c, conditionsGet m t = some c ∧ c.status = CondStatus.condTrue) ∧
    (∀ e, e ∈ collectErrors excludeFor machines →
      condErrName e ∉ excludeFor.map (fun x => x.name)) := by
  have h0 : ¬((machines.length == 0) = true) := by
    simp [List.length_eq_zero, hne]
  refine ⟨?_, collectErrors_eq_join excludeFor machines,
    fun m t => preflightCheckCondition_none_iff m t, ?_⟩
  · cases hc : collectErrors excludeFor machines with
    | nil => simp [preflightChecks, h0, hnd, hc]
    | cons a l => simp [preflightChecks, h0, hnd, hc]
  · intro e he hmem
    obtain ⟨m, _, hexc, hem⟩ := mem_collectErrors excludeFor machines e he
    rw [condErrName_of_mem m e hem] at hmem
    rw [List.mem_map] at hmem
    obtain ⟨x, hx, hxname⟩ := hmem
    have : isExcluded excludeFor m = true := by
      unfold isExcluded
      rw [List.any_eq_true]
      exact ⟨x, hx, by rw [hxname]; exact beq_self_eq_true m.name⟩
    rw [this] at hexc
    cases hexc

/-- Witness for C6: a view with one unhealthy machine and one excluded
unhealthy candidate; the gate fails with the preflightFailedRequeueAfter
backoff and no collected error names the candidate. -/
theorem preflightChecks_health_phase_witness :
    preflightChecks [mSick, mCand] [mCand] = { requeueAfter := preflightFailedRequeueAfter } ∧
    (∀ e, e ∈ collectErrors [mCand] [mSick, mCand] →
      condErrName e ∉ [mCand].map (fun x => x.name)) := by
  have h := preflightChecks_health_phase [mSick, mCand] [mCand] (by decide) (by decide)
  refine ⟨?_, h.2.2.2⟩
  rw [h.1]
  decide

/-- C10: the preflight exclusion set is matched by Name alone.  The whole
gate result depends on the exclusion machines only through their Name
fields; the collected errors are exactly those of the members whose name
does not match any excluded name; and a member tests as excluded precisely
when its name equals the name of some excluded machine, whatever its
namespace, UID or other fields. -/
theorem preflightChecks_exclusion_by_name :
    (∀ machines ex1 ex2, ex1.map (fun e => e.name) = ex2.map (fun e => e.name) →
      preflightChecks machines ex1 = preflightChecks machines ex2) ∧
    (∀ machines excludeFor, collectErrors excludeFor machines =
      ((machines.filter (fun m => !isExcluded excludeFor m)).map machineCondErrors).flatten) ∧
    (∀ excludeFor m, isExcluded excludeFor m = true ↔
      ∃ e, e ∈ excludeFor ∧ m.name = e.name) := by
  refine ⟨?_, fun machines excludeFor => collectErrors_eq_join excludeFor machines, ?_⟩
  · intro machines ex1 ex2 h
    unfold preflightChecks
    rw [collectErrors_eq_of_name_eq ex1 ex2 h machines]
  · intro excludeFor m
    unfold isExcluded
    rw [List.any_eq_true]
    constructor
    · intro ⟨e, he, hbeq⟩
      exact ⟨e, he, by rwa [beq_iff_eq] at hbeq⟩
    · intro ⟨e, he, heq⟩
      exact ⟨e, he, by rwa [beq_iff_eq]⟩

/-- Witness for C10: swapping an excluded machine for one with the same name
but different namespace and UID leaves the gate result unchanged. -/
theorem preflightChecks_exclusion_by_name_witness :
    preflightChecks [mSick, mCand] [mCand] = preflightChecks [mSick, mCand] [mCandAlias] :=
  preflightChecks_exclusion_by_name.1 [mSick, mCand] [mCand] [mCandAlias] (by decide)

/- ----------------------------------------------------------------
   MemberSelector: selectMachineForScaleDown (scale.go lines 228-239)
   and ScaleEngine scale-down (scale.go lines 95-153).
   ---------------------------------------------------------------- -/

/-- Modelled from the spec: ControlPlane.MachineWithDeleteAnnotation lives in
pkg/rke2, not under src; per the spec it filters the given collection down
to the members carrying the delete-requested marker. -/
def machineWithDeleteRequested (machines : List Machine) : List Machine :=
  machines.filter (fun m => m.deleteRequested)

/-- The number of members of the collection assigned to the given failure
domain. -/
def countFD (ms : List Machine) (fd : Option String) : Nat :=
  (ms.filter (fun m => m.failureDomain == fd)).length

/-- Combine step of the maximum scan: keep the current best unless the new
machine scores at least as high. -/
def maxByStep (f : Machine → Nat) (m : Machine) : Option Machine → Option Machine
  | none => some m
  | some m2 => if f m ≥ f m2 then some m else some m2

/-- The first machine maximising the score, scanning left to right. -/
def maxBy (f : Machine → Nat) : List Machine → Option Machine
  | [] => none
  | m :: rest => maxByStep f m (maxBy f rest)

theorem maxBy_mem (f : Machine → Nat) :
    ∀ (l : List Machine) (m : Machine), maxBy f l = some m → m ∈ l := by
  intro l
  induction l with
  | nil => intro m h; cases h
  | cons x rest ih =>
      intro m h
      unfold maxBy at h
      cases hr : maxBy f rest with
      | none =>
          rw [hr] at h
          simp only [maxByStep] at h
          injection h with h1
          rw [← h1]
          exact List.mem_cons_self x rest
      | some m2 =>
          rw [hr] at h
          simp only [maxByStep] at h
          by_cases hge : f x ≥ f m2
          · rw [if_pos hge] at h
            injection h with h1
            rw [← h1]
            exact List.mem_cons_self x rest
          · rw [if_neg hge] at h
            injection h with h1
            rw [← h1]
            exact List.mem_cons_of_mem x (ih m2 hr)

theorem maxBy_isSome (f : Machine → Nat) (l : List Machine) (h : l ≠ []) :
    ∃ m, maxBy f l = some m := by
  cases l with
  | nil => cases h rfl
  | cons x rest =>
      unfold maxBy
      cases hr : maxBy f rest with
      | none => exact ⟨x, rfl⟩
      | some m2 =>
          simp only [maxByStep]
          by_cases hge : f x ≥ f m2
          · exact ⟨x, by rw [if_pos hge]⟩
          · exact ⟨m2, by rw [if_neg hge]⟩

theorem maxBy_le (f : Machine → Nat) :
    ∀ (l : List Machine) (m : Machine), maxBy f l = some m →
      ∀ x, x ∈ l → f x ≤ f m := by
  intro l
  induction l with
  | nil => intro m _ x hx; cases hx
  | cons y rest ih =>
      intro m h x hx
      unfold maxBy at h
      cases hr : maxBy f rest with
      | none =>
          rw [hr] at h
          simp only [maxByStep] at h
          injection h with h1
          cases hx with
          | head => rw [← h1]
          | tail _ hmem =>
              cases rest with
              | nil => cases hmem
              | cons z zs =>
                  obtain ⟨w, hw⟩ := maxBy_isSome f (z :: zs) (by simp)
                  rw [hw] at hr
                  cases hr
      | some m2 =>
          rw [hr] at h
          simp only [maxByStep] at h
          by_cases hge : f y ≥ f m2
          · rw [if_pos hge] at h
            injection h with h1
            cases hx with
            | head => rw [← h1]
            | tail _ hmem => exact le_trans (ih m2 hr x hmem) (h1 ▸ hge)
          · rw [if_neg hge] at h
            injection h with h1
            cases hx with
            | head => exact le_trans (le_of_not_ge hge) (le_of_eq (congrArg f h1))
            | tail _ hmem => exact h1 ▸ ih m2 hr x hmem

/-- Modelled from the spec: ControlPlane.MachineInFailureDomainWithMostMachines
lives in pkg/rke2, not under src; per the spec it picks a member belonging to
the failure domain holding the most members of the given set, and fails with
an explicit error on an empty set. -/
def machineInFailureDomainWithMostMachines (ms : List Machine) : Except String Machine :=
  match maxBy (fun m => countFD ms m.failureDomain) ms with
  | none => Except.error "failed to pick control plane Machine to mark for deletion"
  | some m => Except.ok m

/-- The candidate pool of the selection switch (scale.go lines 230-237):
first non-empty among delete-requested outdated members, delete-requested
members, outdated members, all members. -/
def scaleDownPool (machines outdated : List Machine) : List Machine :=
  if (machineWithDeleteRequested outdated).length > 0 then machineWithDeleteRequested outdated
  else if (machineWithDeleteRequested machines).length > 0 then machineWithDeleteRequested machines
  else if outdated.length > 0 then outdated
  else machines

/-- selectMachineForScaleDown (scale.go lines 228-239). -/
def selectMachineForScaleDown (machines outdated : List Machine) : Except String Machine :=
  machineInFailureDomainWithMostMachines (scaleDownPool machines outdated)

/-- C5: the selection pool is the first non-empty of delete-requested
outdated members, delete-requested members, outdated members, all members;
within the pool the selection returns a member of a failure domain holding
the most pool members; an empty final pool yields an error, a non-empty one
always yields a machine. -/
theorem selectMachineForScaleDown_spec (machines outdated : List Machine) :
    ((machineWithDeleteRequested outdated ≠ [] →
        scaleDownPool machines outdated = machineWithDeleteRequested outdated) ∧
      (machineWithDeleteRequested outdated = [] →
        machineWithDeleteRequested machines ≠ [] →
        scaleDownPool machines outdated = machineWithDeleteRequested machines) ∧
      (machineWithDeleteRequested outdated = [] →
        machineWithDeleteRequested machines = [] → outdated ≠ [] →
        scaleDownPool machines outdated = outdated) ∧
      (machineWithDeleteRequested outdated = [] →
        machineWithDeleteRequested machines = [] → outdated = [] →
        scaleDownPool machines outdated = machines)) ∧
    (scaleDownPool machines outdated = [] →
      ∃ e, selectMachineForScaleDown machines outdated = Except.error e) ∧
    (∀ m, selectMachineForScaleDown machines outdated = Except.ok m →
      m ∈ scaleDownPool machines outdated ∧
      ∀ x, x ∈ scaleDownPool machines outdated →
        countFD (scaleDownPool machines outdated) x.failureDomain ≤
        countFD (scaleDownPool machines outdated) m.failureDomain) ∧
    (scaleDownPool machines outdated ≠ [] →
      ∃ m, selectMachineForScaleDown machines outdated = Except.ok m) := by
  refine ⟨⟨?_, ?_, ?_, ?_⟩, ?_, ?_, ?_⟩
  · intro h1
    unfold scaleDownPool
    rw [if_pos (List.length_pos.mpr h1)]
  · intro h1 h2
    unfold scaleDownPool
    rw [if_neg (by simp [List.length_eq_zero.mpr h1]), if_pos (List.length_pos.mpr h2)]
  · intro h1 h2 h3
    unfold scaleDownPool
    rw [if_neg (by simp [List.length_eq_zero.mpr h1]),
      if_neg (by simp [List.length_eq_zero.mpr h2]), if_pos (List.length_pos.mpr h3)]
  · intro h1 h2 h3
    unfold scaleDownPool
    rw [if_neg (by simp [List.length_eq_zero.mpr h1]),
      if_neg (by simp [List.length_eq_zero.mpr h2]), if_neg (by simp [h3])]
  · intro hpool
    refine ⟨"failed to pick control plane Machine to mark for deletion", ?_⟩
    unfold selectMachineForScaleDown machineInFailureDomainWithMostMachines
    rw [hpool]
    rfl
  · intro m hsel
    unfold selectMachineForScaleDown machineInFailureDomainWithMostMachines at hsel
    cases hmb : maxBy (fun x => countFD (scaleDownPool machines outdated) x.failureDomain)
        (scaleDownPool machines outdated) with
    | none => rw [hmb] at hsel; cases hsel
    | some m2 =>
        rw [hmb] at hsel
        injection hsel with h1
        rw [← h1]
        exact ⟨maxBy_mem _ _ m2 hmb, fun x hx => maxBy_le _ _ m2 hmb x hx⟩
  · intro hpool
    obtain ⟨m, hm⟩ := maxBy_isSome
      (fun x => countFD (scaleDownPool machines outdated) x.failureDomain)
      (scaleDownPool machines outdated) hpool
    refine ⟨m, ?_⟩
    unfold selectMachineForScaleDown machineInFailureDomainWithMostMachines
    rw [hm]

/-- Witness for C5: two healthy machines in the same failure domain, no
marks, empty outdated set; the fallback pool is the full member list and the
selection picks a member of the most-populated domain. -/
theorem selectMachineForScaleDown_spec_witness :
    selectMachineForScaleDown [mHealthy, mSick] [] = Except.ok mHealthy ∧
    mHealthy ∈ scaleDownPool [mHealthy, mSick] [] ∧
    (∀ x, x ∈ scaleDownPool [mHealthy, mSick] [] →
      countFD (scaleDownPool [mHealthy, mSick] []) x.failureDomain ≤
      countFD (scaleDownPool [mHealthy, mSick] []) mHealthy.failureDomain) := by
  have h := (selectMachineForScaleDown_spec [mHealthy, mSick] []).2.2.1 mHealthy (by rfl)
  exact ⟨rfl, h.1, h.2⟩

/-- Outcome of a store Delete call: success, not-found, or a hard error. -/
inductive DelOutcome where
  | ok
  | notFound
  | errD (msg : String)
deriving DecidableEq, Repr

/-- scaleDownControlPlane (scale.go lines 95-153) with the store delete
outcome injected: select the candidate (wrapping a selection error); run the
preflight gate excluding the candidate and return its non-zero result
unchanged; then delete the candidate, treating a not-found report as
success and surfacing any other delete error.  In this total model the
selection returns a machine or an error, so the nil-candidate branch of the
Go code (line 122) is unreachable; scaleDownWithCandidate below models the
pointer-level behaviour of that branch. -/
def scaleDownControlPlane (machines outdated : List Machine) (del : DelOutcome) :
    CtrlResult × Option String :=
  match selectMachineForScaleDown machines outdated with
  | .error e => ({}, some ("failed to select machine for scale down: " ++ e))
  | .ok m =>
      let res := preflightChecks machines [m]
      if !res.isZero then (res, none)
      else
        match del with
        | .errD e => ({}, some e)
        | _ => ({ requeue := true }, none)

/-- C7: once a candidate is selected and the preflight gate passes, a delete
whose store outcome is not-found yields the requeue success result with a
nil error, and any other delete failure is returned to the caller. -/
theorem scaleDownControlPlane_delete (machines outdated : List Machine) (m : Machine)
    (hsel : selectMachineForScaleDown machines outdated = Except.ok m)
    (hpf : (preflightChecks machines [m]).isZero = true) :
    scaleDownControlPlane machines outdated DelOutcome.notFound = ({ requeue := true }, none) ∧
    (∀ e, scaleDownControlPlane machines outdated (DelOutcome.errD e) = ({}, some e)) := by
  refine ⟨?_, fun e => ?_⟩ <;> simp [scaleDownControlPlane, hsel, hpf]

/-- Witness for C7: a single healthy machine selected and excluded from its
own preflight evaluation. -/
theorem scaleDownControlPlane_delete_witness :
    scaleDownControlPlane [mHealthy] [] DelOutcome.notFound = ({ requeue := true }, none) ∧
    scaleDownControlPlane [mHealthy] [] (DelOutcome.errD "disk error") = ({}, some "disk error") := by
  have h := scaleDownControlPlane_delete [mHealthy] [] mHealthy (by rfl) (by decide)
  exact ⟨h.1, h.2 "disk error"⟩

/- ----------------------------------------------------------------
   Pointer-level model of the exclusion list for C9.

   In Go, excludeFor is a slice of *clusterv1.Machine and the loop body
   (scale.go line 190) reads excluded.Name unconditionally.  We model a
   possibly-nil pointer as Option Machine; an overall result of none means
   the evaluation dereferenced a nil pointer (a runtime panic), so no
   ordinary return value is produced.
   ---------------------------------------------------------------- -/

/-- Scan of the exclusion entries for one machine: reading the Name of a nil
entry is a nil dereference (none); otherwise report whether some entry name
matches. -/
def matchExcludedOpt (m : Machine) : List (Option Machine) → Option Bool
  | [] => some false
  | none :: _ => none
  | some e :: rest => if m.name == e.name then some true else matchExcludedOpt m rest

/-- The error-collection loop over possibly-nil exclusion entries. -/
def collectErrorsOpt (excludeFor : List (Option Machine)) :
    List Machine → Option (List CondError)
  | [] => some []
  | m :: rest =>
      match matchExcludedOpt m excludeFor with
      | none => none
      | some true => collectErrorsOpt excludeFor rest
      | some false =>
          match collectErrorsOpt excludeFor rest with
          | none => none
          | some es => some (machineCondErrors m ++ es)

/-- preflightChecks over possibly-nil exclusion entries: the empty-view and
deleting-machine branches return before the loop runs, so they never
dereference an entry. -/
def preflightChecksOpt (machines : List Machine) (excludeFor : List (Option Machine)) :
    Option CtrlResult :=
  if machines.length == 0 then some {}
  else if hasDeletingMachine machines then some { requeueAfter := deleteRequeueAfter }
  else
    match collectErrorsOpt excludeFor machines with
    | none => none
    | some errs =>
        if errs.length > 0 then some { requeueAfter := preflightFailedRequeueAfter }
        else some {}

/-- scaleDownControlPlane from the point where selection returned the given
candidate pointer with a nil error (scale.go lines 110-152): preflight runs
with the candidate as the exclusion entry BEFORE the explicit nil-check of
line 122, and the delete only happens after both. -/
def scaleDownWithCandidate (machines : List Machine) (candidate : Option Machine)
    (del : DelOutcome) : Option (CtrlResult × Option String) :=
  match preflightChecksOpt machines [candidate] with
  | none => none
  | some res =>
      if !res.isZero then some (res, none)
      else
        match candidate with
        | none => some ({}, some "failed to pick control plane Machine to delete")
        | some _ =>
            match del with
            | .errD e => some ({}, some e)
            | _ => some ({ requeue := true }, none)

/-- C9: for every view with at least one member and no deleting member, a
nil candidate handed to the preflight exclusion is dereferenced inside the
machine loop before the nil-check branch can run: the whole scale-down
evaluation ends in the nil-dereference outcome and the nil-check error is
never returned. -/
theorem scaleDown_nil_candidate_crash (machines : List Machine) (del : DelOutcome)
    (hne : machines ≠ []) (hnd : hasDeletingMachine machines = false) :
    scaleDownWithCandidate machines none del = none := by
  cases machines with
  | nil => cases hne rfl
  | cons m rest =>
      have hcol : collectErrorsOpt [none] (m :: rest) = none := by
        simp [collectErrorsOpt, matchExcludedOpt]
      simp [scaleDownWithCandidate, preflightChecksOpt, hnd, hcol]

/-- Witness for C9: one healthy machine, nil candidate, successful delete
outcome; the evaluation crashes. -/
theorem scaleDown_nil_candidate_crash_witness :
    scaleDownWithCandidate [mHealthy] none DelOutcome.ok = none :=
  scaleDown_nil_candidate_crash [mHealthy] DelOutcome.ok (by decide) (by decide)

/- ----------------------------------------------------------------
   Provisioner: cloneConfigsAndGenerateMachine (scale.go lines 241-290),
   cleanupFromGeneration (lines 292-310), and the Initialize transition
   (lines 45-72).

   The store create/delete calls are injected through ProvisionEnv; the
   ProvisionState tracks which child resources exist in the store and how
   many Member records were created.  A delete whose outcome is ok or
   notFound leaves the object absent from the store; a hard delete error
   leaves it in place.
   ---------------------------------------------------------------- -/

/-- corev1.ObjectReference, with the namespace field spelled ns. -/
structure ObjectReference where
  kind : String
  apiVersion : String
  ns : String
  name : String
deriving DecidableEq, Repr

/-- Injected outcomes of the external store calls made by one provisioning
attempt: the infrastructure-template clone, the bootstrap-config creation,
the Machine creation, and the delete outcome per object reference. -/
structure ProvisionEnv where
  cloneInfraResult : Except String ObjectReference
  createBootstrapResult : Except String ObjectReference
  createMachineResult : Except String Unit
  deleteOutcome : ObjectReference → DelOutcome

/-- Structured view of the wrapped errors the provisioner aggregates. -/
inductive ProvErr where
  | cloneFailed (e : String)
  | bootstrapFailed (e : String)
  | machineFailed (e : String)
  | cleanupFailed (e : String)
deriving DecidableEq, Repr

/-- Store state as seen by one provisioning attempt: the child references
currently existing, and the number of Member records created. -/
structure ProvisionState where
  existing : List ObjectReference
  members : Nat
deriving DecidableEq, Repr

/-- cleanupFromGeneration (scale.go lines 292-310): delete each non-nil
reference; a delete reported not-found adds no error; a hard delete error
is collected and the object stays in the store. -/
def cleanupFromGeneration (env : ProvisionEnv) :
    ProvisionState → List (Option ObjectReference) → ProvisionState × List ProvErr
  | st, [] => (st, [])
  | st, none :: rest => cleanupFromGeneration env st rest
  | st, some r :: rest =>
      match env.deleteOutcome r with
      | .errD e =>
          let p := cleanupFromGeneration env st rest
          (p.1, ProvErr.cleanupFailed e :: p.2)
      | _ =>
          cleanupFromGeneration env
            { st with existing := st.existing.filter (fun x => !(x == r)) } rest

/-- Cleanup never touches the Member count. -/
theorem cleanupFromGeneration_members (env : ProvisionEnv) :
    ∀ (refs : List (Option ObjectReference)) (st : ProvisionState),
      (cleanupFromGeneration env st refs).1.members = st.members := by
  intro refs
  induction refs with
  | nil => intro st; rfl
  | cons r rest ih =>
      intro st
      cases r with
      | none =>
          simp only [cleanupFromGeneration]
          exact ih st
      | some r =>
          cases hd : env.deleteOutcome r with
          | errD e =>
              simp only [cleanupFromGeneration, hd]
              exact ih st
          | ok =>
              simp only [cleanupFromGeneration, hd]
              exact ih _
          | notFound =>
              simp only [cleanupFromGeneration, hd]
              exact ih _

/-- Every error cleanup collects is a cleanup error. -/
theorem cleanupFromGeneration_errs (env : ProvisionEnv) :
    ∀ (refs : List (Option ObjectReference)) (st : ProvisionState),
      ∀ x, x ∈ (cleanupFromGeneration env st refs).2 → ∃ e, x = ProvErr.cleanupFailed e := by
  intro refs
  induction refs with
  | nil => intro st x hx; cases hx
  | cons r rest ih =>
      intro st x hx
      cases r with
      | none =>
          simp only [cleanupFromGeneration] at hx
          exact ih st x hx
      | some r =>
          cases hd : env.deleteOutcome r with
          | errD e =>
              simp only [cleanupFromGeneration, hd] at hx
              cases hx with
              | head => exact ⟨e, rfl⟩
              | tail _ hmem => exact ih st x hmem
          | ok =>
              simp only [cleanupFromGeneration, hd] at hx
              exact ih _ x hx
          | notFound =>
              simp only [cleanupFromGeneration, hd] at hx
              exact ih _ x hx

/-- When no delete hard-fails, cleanup removes every listed reference from
the store and collects no error. -/
theorem cleanupFromGeneration_clears (env : ProvisionEnv)
    (hdel : ∀ r e, env.deleteOutcome r ≠ DelOutcome.errD e) :
    ∀ (refs : List (Option ObjectReference)) (st : ProvisionState),
      (cleanupFromGeneration env st refs).1.existing =
        st.existing.filter (fun x => !(refs.contains (some x))) ∧
      (cleanupFromGeneration env st refs).2 = [] := by
  intro refs
  induction refs with
  | nil =>
      intro st
      refine ⟨?_, rfl⟩
      simp [cleanupFromGeneration, List.contains]
  | cons r rest ih =>
      intro st
      cases r with
      | none =>
          simp only [cleanupFromGeneration]
          refine ⟨(ih st).1.trans ?_, (ih st).2⟩
          simp [List.contains]
      | some r =>
          cases hd : env.deleteOutcome r with
          | errD e => exact absurd hd (hdel r e)
          | ok =>
              simp only [cleanupFromGeneration, hd]
              refine ⟨(ih _).1.trans ?_, (ih _).2⟩
              rw [List.filter_filter]
              apply List.filter_congr
              intro x _
              by_cases hxr : x = r
              · subst hxr; simp
              · simp [hxr, Ne.symm hxr, List.contains]
          | notFound =>
              simp only [cleanupFromGeneration, hd]
              refine ⟨(ih _).1.trans ?_, (ih _).2⟩
              rw [List.filter_filter]
              apply List.filter_congr
              intro x _
              by_cases hxr : x = r
              · subst hxr; simp
              · simp [hxr, Ne.symm hxr, List.contains]

/-- cloneConfigsAndGenerateMachine (scale.go lines 241-290): a clone failure
returns early with nothing created; a bootstrap failure skips Machine
generation; any failure triggers cleanup of the created children, appending
cleanup errors after the creation errors; full success creates one Member. -/
def cloneConfigsAndGenerateMachine (env : ProvisionEnv) :
    ProvisionState × Option (List ProvErr) :=
  match env.cloneInfraResult with
  | .error e => (⟨[], 0⟩, some [ProvErr.cloneFailed e])
  | .ok infraRef =>
      match env.createBootstrapResult with
      | .error e =>
          let p := cleanupFromGeneration env ⟨[infraRef], 0⟩ [some infraRef, none]
          (p.1, some (ProvErr.bootstrapFailed e :: p.2))
      | .ok bRef =>
          match env.createMachineResult with
          | .ok _ => (⟨[infraRef, bRef], 1⟩, none)
          | .error e =>
              let p := cleanupFromGeneration env ⟨[infraRef, bRef], 0⟩
                [some infraRef, some bRef]
              (p.1, some (ProvErr.machineFailed e :: p.2))

/- Concrete provisioning fixtures. -/

def refInfra : ObjectReference := ⟨"VSphereMachine", "infrastructure/v1beta1", "default", "infra-1"⟩

def refBootstrap : ObjectReference := ⟨"RKE2Config", "bootstrap/v1alpha1", "default", "bootstrap-1"⟩

/-- Clone succeeds, bootstrap-config creation fails, and every store delete
hard-fails. -/
def envCleanupFails : ProvisionEnv :=
  ⟨Except.ok refInfra, Except.error "bootstrap create failed", Except.ok (),
    fun _ => DelOutcome.errD "delete failed"⟩

/-- The infrastructure-template clone itself fails. -/
def envCloneFails : ProvisionEnv :=
  ⟨Except.error "no quota", Except.ok refBootstrap, Except.ok (), fun _ => DelOutcome.ok⟩

/-- C2 counterexample: bootstrap creation fails after a successful clone and
the cleanup delete hard-fails; the attempt returns an error, yet the cloned
infrastructure template persists in the store - refuting the claim that on
any failure zero children persist.  The rollback is best effort only. -/
theorem cloneConfigs_orphan_counterexample :
    (cloneConfigsAndGenerateMachine envCleanupFails).2 ≠ none ∧
    (cloneConfigsAndGenerateMachine envCleanupFails).1.existing = [refInfra] := by
  refine ⟨by decide, by decide⟩

/-- C2 (amended): on full success exactly one Member is created; on any
failure zero Members are created and the returned error list is the creation
failures followed by cleanup failures only; a clone failure returns early
with nothing created; when no cleanup delete hard-fails, a failed attempt
leaves zero children in the store and reports no cleanup error (a not-found
delete outcome in particular adds no error); when a cleanup delete does
hard-fail, its error is aggregated after the creation failure and the
undeleted child persists. -/
theorem cloneConfigsAndGenerateMachine_rollback (env : ProvisionEnv) :
    (∀ st, cloneConfigsAndGenerateMachine env = (st, none) → st.members = 1) ∧
    (∀ st errs, cloneConfigsAndGenerateMachine env = (st, some errs) → st.members = 0) ∧
    (∀ e, env.cloneInfraResult = Except.error e →
      cloneConfigsAndGenerateMachine env = (⟨[], 0⟩, some [ProvErr.cloneFailed e])) ∧
    ((∀ r e, env.deleteOutcome r ≠ DelOutcome.errD e) →
      ∀ st errs, cloneConfigsAndGenerateMachine env = (st, some errs) →
        st.existing = [] ∧ ∀ e, ProvErr.cleanupFailed e ∉ errs) ∧
    (∀ st errs, cloneConfigsAndGenerateMachine env = (st, some errs) →
      ∃ ce cl, errs = ce ++ cl ∧ ce ≠ [] ∧
        (∀ x, x ∈ ce → ∀ e2, x ≠ ProvErr.cleanupFailed e2) ∧
        (∀ x, x ∈ cl → ∃ e2, x = ProvErr.cleanupFailed e2)) ∧
    (∀ r e d, env.cloneInfraResult = Except.ok r →
      env.createBootstrapResult = Except.error e →
      env.deleteOutcome r = DelOutcome.errD d →
      cloneConfigsAndGenerateMachine env =
        (⟨[r], 0⟩, some [ProvErr.bootstrapFailed e, ProvErr.cleanupFailed d])) := by
  refine ⟨?_, ?_, ?_, ?_, ?_, ?_⟩
  · intro st h
    cases hcl : env.cloneInfraResult with
    | error e => simp [cloneConfigsAndGenerateMachine, hcl] at h
    | ok r =>
        cases hbs : env.createBootstrapResult with
        | error e => simp [cloneConfigsAndGenerateMachine, hcl, hbs] at h
        | ok b =>
            cases hmc : env.createMachineResult with
            | error e => simp [cloneConfigsAndGenerateMachine, hcl, hbs, hmc] at h
            | ok u =>
                simp [cloneConfigsAndGenerateMachine, hcl, hbs, hmc] at h
                rw [← h]
  · intro st errs h
    cases hcl : env.cloneInfraResult with
    | error e =>
        simp [cloneConfigsAndGenerateMachine, hcl] at h
        rw [← h.1]
    | ok r =>
        cases hbs : env.createBootstrapResult with
        | error e =>
            simp [cloneConfigsAndGenerateMachine, hcl, hbs] at h
            rw [← h.1, cleanupFromGeneration_members]
        | ok b =>
            cases hmc : env.createMachineResult with
            | error e =>
                simp [cloneConfigsAndGenerateMachine, hcl, hbs, hmc] at h
                rw [← h.1, cleanupFromGeneration_members]
            | ok u => simp [cloneConfigsAndGenerateMachine, hcl, hbs, hmc] at h
  · intro e h
    simp [cloneConfigsAndGenerateMachine, h]
  · intro hdel st errs h
    cases hcl : env.cloneInfraResult with
    | error e =>
        simp [cloneConfigsAndGenerateMachine, hcl] at h
        refine ⟨by rw [← h.1], ?_⟩
        intro e2 hmem
        rw [← h.2] at hmem
        simp at hmem
    | ok r =>
        cases hbs : env.createBootstrapResult with
        | error e =>
            have hcle := cleanupFromGeneration_clears env hdel [some r, none] ⟨[r], 0⟩
            simp [cloneConfigsAndGenerateMachine, hcl, hbs] at h
            refine ⟨?_, ?_⟩
            · rw [← h.1, hcle.1]
              simp [List.contains]
            · intro e2 hmem
              rw [← h.2] at hmem
              rw [hcle.2] at hmem
              simp at hmem
        | ok b =>
            cases hmc : env.createMachineResult with
            | error e =>
                have hcle := cleanupFromGeneration_clears env hdel [some r, some b] ⟨[r, b], 0⟩
                simp [cloneConfigsAndGenerateMachine, hcl, hbs, hmc] at h
                refine ⟨?_, ?_⟩
                · rw [← h.1, hcle.1]
                  simp [List.contains]
                · intro e2 hmem
                  rw [← h.2] at hmem
                  rw [hcle.2] at hmem
                  simp at hmem
            | ok u => simp [cloneConfigsAndGenerateMachine, hcl, hbs, hmc] at h
  · intro st errs h
    cases hcl : env.cloneInfraResult with
    | error e =>
        simp [cloneConfigsAndGenerateMachine, hcl] at h
        refine ⟨[ProvErr.cloneFailed e], [], by simp [← h.2], by simp, ?_, by simp⟩
        intro x hx e2
        simp at hx
        rw [hx]
        simp
    | ok r =>
        cases hbs : env.createBootstrapResult with
        | error e =>
            simp [cloneConfigsAndGenerateMachine, hcl, hbs] at h
            refine ⟨[ProvErr.bootstrapFailed e],
              (cleanupFromGeneration env ⟨[r], 0⟩ [some r, none]).2, by simp [← h.2], by simp,
              ?_, fun x hx => cleanupFromGeneration_errs env [some r, none] ⟨[r], 0⟩ x hx⟩
            intro x hx e2
            simp at hx
            rw [hx]
            simp
        | ok b =>
            cases hmc : env.createMachineResult with
            | error e =>
                simp [cloneConfigsAndGenerateMachine, hcl, hbs, hmc] at h
                refine ⟨[ProvErr.machineFailed e],
                  (cleanupFromGeneration env ⟨[r, b], 0⟩ [some r, some b]).2,
                  by simp [← h.2], by simp, ?_,
                  fun x hx => cleanupFromGeneration_errs env [some r, some b] ⟨[r, b], 0⟩ x hx⟩
                intro x hx e2
                simp at hx
                rw [hx]
                simp
            | ok u => simp [cloneConfigsAndGenerateMachine, hcl, hbs, hmc] at h
  · intro r e d hcl hbs hd
    simp [cloneConfigsAndGenerateMachine, hcl, hbs, cleanupFromGeneration, hd]

/-- Witness for the amended C2 theorem: the early return of a clone failure,
and the aggregation of a bootstrap creation failure with a hard cleanup
failure that leaves the cloned template in the store. -/
theorem cloneConfigsAndGenerateMachine_rollback_witness :
    cloneConfigsAndGenerateMachine envCloneFails =
      (⟨[], 0⟩, some [ProvErr.cloneFailed "no quota"]) ∧
    cloneConfigsAndGenerateMachine envCleanupFails =
      (⟨[refInfra], 0⟩,
        some [ProvErr.bootstrapFailed "bootstrap create failed",
          ProvErr.cleanupFailed "delete failed"]) :=
  ⟨(cloneConfigsAndGenerateMachine_rollback envCloneFails).2.2.1 "no quota" rfl,
    (cloneConfigsAndGenerateMachine_rollback envCleanupFails).2.2.2.2.2 refInfra
      "bootstrap create failed" "delete failed" rfl rfl rfl⟩

/-- Structured view of the errors initializeControlPlane can return: the
uncached read failed, the uncached read found owned machines (the fatal
already-initialized guard), or the provisioning attempt failed. -/
inductive InitErr where
  | readFailed (e : String)
  | alreadyInitialized (count : Nat)
  | provisionFailed (errs : List ProvErr)
deriving DecidableEq, Repr

/-- initializeControlPlane (scale.go lines 45-72) with the uncached read
outcome and the provisioning store outcomes injected.  The returned triple
is the ctrl.Result, the returned error, and the store state of the
provisioning attempt (⟨[], 0⟩ when provisioning was never invoked).  The
InitialControlPlaneConfig and NextFailureDomainForScaleUp computations of
pkg/rke2 are read-only inputs to the provisioner and are absorbed into the
injected creation outcomes. -/
def initializeControlPlane (uncachedRead : Except String (List Machine))
    (env : ProvisionEnv) : CtrlResult × Option InitErr × ProvisionState :=
  match uncachedRead with
  | .error e => ({}, some (InitErr.readFailed e), ⟨[], 0⟩)
  | .ok owned =>
      if owned.length > 0 then
        ({}, some (InitErr.alreadyInitialized owned.length), ⟨[], 0⟩)
      else
        match cloneConfigsAndGenerateMachine env with
        | (st, some errs) => ({}, some (InitErr.provisionFailed errs), st)
        | (st, none) => ({ requeue := true }, none, st)

/-- C3: whenever the uncached re-read returns n ≥ 1 owned machines, the
Initialize transition returns the fatal already-initialized error with a
zero result and performs no create at all: no template clone, no bootstrap
config, no Member - the store state stays empty whatever the injected
provisioning outcomes were. -/
theorem initializeControlPlane_guard (uncachedRead : Except String (List Machine))
    (env : ProvisionEnv) (owned : List Machine) (n : Nat)
    (hread : uncachedRead = Except.ok owned) (hn : owned.length = n) (hpos : 1 ≤ n) :
    initializeControlPlane uncachedRead env =
      ({}, some (InitErr.alreadyInitialized n), ⟨[], 0⟩) := by
  subst hread
  subst hn
  have hgt : owned.length > 0 := hpos
  simp [initializeControlPlane, hgt]

/-- Witness for C3: one owned machine found by the uncached re-read. -/
theorem initializeControlPlane_guard_witness :
    initializeControlPlane (Except.ok [mHealthy]) envCloneFails =
      ({}, some (InitErr.alreadyInitialized 1), ⟨[], 0⟩) :=
  initializeControlPlane_guard (Except.ok [mHealthy]) envCloneFails [mHealthy] 1
    rfl rfl (by decide)
